import Mathlib

/-!
# Build-context assembly and build/push sequencing of `services/docker/docker.go`

A shallow embedding of `DockerService.generateDockerfile`, `DockerService.buildContext`,
`DockerService.Build` and `DockerService.Push`.

* A Go `error` is represented by its message (`err.Error()`), so
  `fmt.Errorf("X %v", err)` is `"X " ++ err`.
* A tar archive is represented by the sequence of entries (header, content) it holds.
* Calls into collaborators (archive writer, engine client, logger, project) are recorded,
  in program order and with the error they returned, in an event log.
* Collaborators may fail arbitrarily: their outcomes are fields of the structures below and
  every theorem quantifies over them.
-/

namespace Docker

/-! ## Data model -/

abbrev Byte := Fin 256

abbrev Bytes := List Byte

/-- The fields of `tar.Header` that the program sets or that identify an entry; every field
a Go composite literal leaves out is its zero value. Times are nanosecond readings. -/
structure Header where
  Typeflag : Nat := 0
  Name : String := ""
  Linkname : String := ""
  Size : Int := 0
  Mode : Int := 0
  Uid : Int := 0
  Gid : Int := 0
  Uname : String := ""
  Gname : String := ""
  ModTime : Int := 0
deriving DecidableEq, Repr

/-- One archive entry: the header and the content bytes that follow it. -/
structure Entry where
  hdr : Header
  content : Bytes
deriving DecidableEq, Repr

/-- An archive, as the ordered sequence of its entries. -/
abbrev Archive := List Entry

/-- What a `tar.Reader` over the source archive yields: `eof` when `Next` returns `io.EOF`,
`fail e` when `Next` returns another error, and otherwise a header followed by the outcome of
reading the entry's content to its end. -/
inductive TarStream where
  | eof : TarStream
  | fail (e : String) : TarStream
  | entry (hdr : Header) (content : Except String Bytes) (rest : TarStream) : TarStream

/-- The stream of a well-formed archive holding exactly the given entries. -/
def TarStream.ofEntries : Archive → TarStream
  | [] => .eof
  | e :: es => .entry e.hdr (.ok e.content) (TarStream.ofEntries es)

/-- The errors the `tar.Writer` operations return, as functions of what has been written so
far and of the argument; `none` is success. -/
structure TarFaults where
  WriteHeader : Archive → Header → Option String
  Write : Archive → Bytes → Option String
  Close : Archive → Option String

/-- A `context.Context`, reduced to its deadline (`none` for `context.Background()`). -/
structure Context where
  deadline : Option Int
deriving DecidableEq, Repr

/-- A response stream (`io.ReadCloser`) of the engine. -/
abbrev Stream := String

/-- The fields of `types.ImageBuildOptions` that `Build` sets. -/
structure ImageBuildOptions where
  Context : Option Archive
  Dockerfile : String
  Tags : List String
  Remove : Bool
deriving DecidableEq, Repr

structure ImageBuildResponse where
  Body : Stream
  OSType : String := ""
deriving DecidableEq, Repr

structure ImagePushOptions where
  RegistryAuth : String
deriving DecidableEq, Repr

/-- Modelled from the spec: the auth credential, "username + secret (password or token),
serialized to a compact JSON object". The declaration of `types.AuthConfig` is outside the
source file; its fields and JSON keys are those of the engine library, each `omitempty`. -/
structure AuthConfig where
  Username : String := ""
  Password : String := ""
  Auth : String := ""
  Email : String := ""
  ServerAddress : String := ""
  IdentityToken : String := ""
  RegistryToken : String := ""
deriving DecidableEq, Repr

/-- Modelled from the spec: the project collaborator, which "supplies file-bytes for a
generated build-definition file", or fails. `Dockerfile` is the outcome of
`project.Dockerfile()`. -/
structure Project where
  Dockerfile : Except String Bytes

/-- Modelled from the spec: the image reference, "a local tag and a remote
(registry-qualified) tag, both strings", together with the build directory. `LocalTag` and
`RemoteTag` are the values of the methods of those names. -/
structure DockerImage where
  Directory : String
  LocalTag : String
  RemoteTag : String
deriving DecidableEq, Repr

/-- The engine client. `ImagePush` returns a pair, response and error, as in Go: the response
is `none` when it is the nil interface. -/
structure Client where
  ImageBuild : Context → Option Archive → ImageBuildOptions →
    Except String ImageBuildResponse
  ImageTag : Context → String → String → Option String
  ImagePush : Context → String → ImagePushOptions → Option Stream × Option String

structure DockerService where
  project : Project
  DockerFileName : String
  Client : Client
  AuthConfig : AuthConfig := {}
  dockerImage : DockerImage

/-- Everything package-level the code reads: the constant `defaults.GeneratedDockerFile`, the
clock, `archive.TarWithOptions`, the failures of the archive writer, `logger.PrintStream`, and
the JSON string literal `encoding/json` emits for a Go string. -/
structure Env where
  GeneratedDockerFile : String
  /-- the value of `time.Now()` in `generateDockerfile` -/
  timeNow : Int
  /-- the clock reading when `context.WithTimeout` is evaluated -/
  ctxNow : Int
  TarWithOptions : String → Except String TarStream
  tar : TarFaults
  PrintStream : Stream → Option String
  jsonString : String → Bytes

/-- The collaborator calls the code makes. -/
inductive Call where
  | PrintInfo (msg : String)
  | cancel
  | TarWithOptions (dir : String)
  | Next
  | WriteHeader (hdr : Header)
  | Copy
  | Dockerfile
  | Write (b : Bytes)
  | CloseWriter
  | Marshal
  | ImageBuild (ctx : Context) (body : Option Archive) (opts : ImageBuildOptions)
  | ImageTag (ctx : Context) (source target : String)
  | ImagePush (ctx : Context) (image : String) (opts : ImagePushOptions)
  | PrintStream (s : Stream)
  | Close (s : Stream)
deriving DecidableEq, Repr

/-- A call together with the error it returned (`none`: it succeeded; a `Next` that returns
`io.EOF` is the end of the archive and counts as success). -/
structure Event where
  call : Call
  err : Option String
deriving DecidableEq, Repr

/-- How a call of `Build` or `Push` ends: it returns an `error` (`none` is `nil`), or it
panics. -/
inductive Outcome where
  | returned (err : Option String)
  | panicked (msg : String)
deriving DecidableEq, Repr

/-! ## Time -/

def Second : Int := 1000000000

def Minute : Int := 60 * Second

def Background : Context := { deadline := none }

/-- `context.WithTimeout(parent, d)` evaluated at clock reading `now`: the deadline is
`now + d`, unless the parent's is earlier. -/
def WithTimeout (parent : Context) (now d : Int) : Context :=
  match parent.deadline with
  | none => { deadline := some (now + d) }
  | some p => { deadline := some (min p (now + d)) }

/-! ## The archive writer -/

/-- Append bytes to the content of the entry written last. -/
def appendContent : Archive → Bytes → Archive
  | [], _ => []
  | [e], b => [{ e with content := e.content ++ b }]
  | e :: e2 :: es, b => e :: appendContent (e2 :: es) b

/-- `tar.Writer.WriteHeader`: start a new entry. -/
def WriteHeader (f : TarFaults) (tw : Archive) (hdr : Header) : Except String Archive :=
  match f.WriteHeader tw hdr with
  | some e => .error e
  | none => .ok (tw ++ [{ hdr := hdr, content := [] }])

/-- `tar.Writer.Write`: add content to the current entry. -/
def Write (f : TarFaults) (tw : Archive) (b : Bytes) : Except String Archive :=
  match f.Write tw b with
  | some e => .error e
  | none => .ok (appendContent tw b)

/-- `io.Copy(tarWriter, tarReader)`: read the current entry's content to its end and write it;
the error is the reader's or the writer's. -/
def Copy (f : TarFaults) (tw : Archive) (content : Except String Bytes) : Except String Archive :=
  match content with
  | .error e => .error e
  | .ok b => Write f tw b

/-- `tar.Writer.Close`. -/
def Close (f : TarFaults) (tw : Archive) : Option String :=
  f.Close tw

/-! ## The code -/

/-- Result of `generateDockerfile`: the returned error, the writer afterwards, the calls. -/
structure GenResult where
  err : Option String
  tw : Archive
  log : List Event

def generateDockerfile (env : Env) (ds : DockerService) (tarWriter : Archive) : GenResult :=
  match ds.project.Dockerfile with
  | .error err =>
    { err := some ("Loading dockerfile " ++ err), tw := tarWriter,
      log := [⟨.Dockerfile, some err⟩] }
  | .ok fileBytes =>
    let hdr : Header :=
      { Name := env.GeneratedDockerFile,
        Mode := 0o600,
        Size := (fileBytes.length : Int),
        ModTime := env.timeNow }
    match WriteHeader env.tar tarWriter hdr with
    | .error err =>
      { err := some ("Writing Dockerfile header " ++ err), tw := tarWriter,
        log := [⟨.Dockerfile, none⟩, ⟨.WriteHeader hdr, some err⟩] }
    | .ok tw1 =>
      match Write env.tar tw1 fileBytes with
      | .error err =>
        { err := some ("Writing Dockerfile content " ++ err), tw := tw1,
          log := [⟨.Dockerfile, none⟩, ⟨.WriteHeader hdr, none⟩, ⟨.Write fileBytes, some err⟩] }
      | .ok tw2 =>
        { err := none, tw := tw2,
          log := [⟨.Dockerfile, none⟩, ⟨.WriteHeader hdr, none⟩, ⟨.Write fileBytes, none⟩] }

/-- The copy loop of `buildContext` (the `for` over `tarReader.Next()`): the error it returns
early with, or the writer at `break`; and the calls made. -/
def copyLoop (env : Env) : TarStream → Archive → Except String Archive × List Event
  | .eof, tw => (.ok tw, [⟨.Next, none⟩])
  | .fail err, _ => (.error ("Error copy context " ++ err), [⟨.Next, some err⟩])
  | .entry hdr content rest, tw =>
    match WriteHeader env.tar tw hdr with
    | .error err =>
      (.error ("Error copy context " ++ err), [⟨.Next, none⟩, ⟨.WriteHeader hdr, some err⟩])
    | .ok tw1 =>
      match Copy env.tar tw1 content with
      | .error err =>
        (.error ("Error copy context " ++ err),
          [⟨.Next, none⟩, ⟨.WriteHeader hdr, none⟩, ⟨.Copy, some err⟩])
      | .ok tw2 =>
        let r := copyLoop env rest tw2
        (r.1, [⟨.Next, none⟩, ⟨.WriteHeader hdr, none⟩, ⟨.Copy, none⟩] ++ r.2)

/-- Result of `buildContext`: the Go pair (reader, error) and the calls made. The reader is
the archive held by the returned `*bytes.Reader`, `none` for `nil`. -/
structure ContextResult where
  reader : Option Archive
  err : Option String
  log : List Event

def buildContext (env : Env) (ds : DockerService) : ContextResult :=
  match env.TarWithOptions ds.dockerImage.Directory with
  | .error err =>
    { reader := none, err := some ("Failed to create build context " ++ err),
      log := [⟨.TarWithOptions ds.dockerImage.Directory, some err⟩] }
  | .ok existingBuildContext =>
    let log0 : List Event := [⟨.TarWithOptions ds.dockerImage.Directory, none⟩]
    match copyLoop env existingBuildContext [] with
    | (.error err, log1) => { reader := none, err := some err, log := log0 ++ log1 }
    | (.ok tw, log1) =>
      let g : GenResult :=
        if ds.DockerFileName = env.GeneratedDockerFile then generateDockerfile env ds tw
        else { err := none, tw := tw, log := [] }
      match g.err with
      | some err => { reader := none, err := some err, log := log0 ++ log1 ++ g.log }
      | none =>
        match Close env.tar g.tw with
        | some err =>
          { reader := none, err := some ("Closing tarWriter " ++ err),
            log := log0 ++ log1 ++ g.log ++ [⟨.CloseWriter, some err⟩] }
        | none =>
          { reader := some g.tw, err := none,
            log := log0 ++ log1 ++ g.log ++ [⟨.CloseWriter, none⟩] }

/-- Result of `Build` or `Push`: how the call ended and the calls made, deferred ones
included. -/
structure RunResult where
  outcome : Outcome
  log : List Event

def Build (env : Env) (ds : DockerService) : RunResult :=
  let log0 : List Event := [⟨.PrintInfo ("Building " ++ ds.dockerImage.LocalTag), none⟩]
  let ctx := WithTimeout Background env.ctxNow (Minute * 5)
  let c := buildContext env ds
  let combinedBuildContextReader := c.reader
  match c.err with
  | some err =>
    { outcome := .returned (some ("Creating docker context " ++ err)),
      log := log0 ++ c.log ++ [⟨.cancel, none⟩] }
  | none =>
    let buildOptions : ImageBuildOptions :=
      { Context := combinedBuildContextReader,
        Dockerfile := ds.DockerFileName,
        Tags := [ds.dockerImage.LocalTag],
        Remove := true }
    match ds.Client.ImageBuild ctx combinedBuildContextReader buildOptions with
    | .error err =>
      { outcome := .returned (some ("Failed to build docker image " ++ err)),
        log := log0 ++ c.log ++
          [⟨.ImageBuild ctx combinedBuildContextReader buildOptions, some err⟩,
           ⟨.cancel, none⟩] }
    | .ok buildResponse =>
      { outcome := .returned none,
        log := log0 ++ c.log ++
          [⟨.ImageBuild ctx combinedBuildContextReader buildOptions, none⟩,
           ⟨.PrintStream buildResponse.Body, env.PrintStream buildResponse.Body⟩,
           ⟨.Close buildResponse.Body, none⟩,
           ⟨.cancel, none⟩] }

/-! ### `encoding/base64`: the URL alphabet, with padding -/

def encodeURL : List Char :=
  "ABCDEFGHIJKLMNOPQRSTUVWXYZabcdefghijklmnopqrstuvwxyz0123456789-_".toList

/-- The character of a 6-bit value. -/
def enc6 (n : Nat) : Char := encodeURL.getD n 'A'

/-- The 6-bit value of a character of the alphabet. -/
def dec6 (c : Char) : Option Nat :=
  if encodeURL.indexOf c < 64 then some (encodeURL.indexOf c) else none

def toByte (n : Nat) : Byte := ⟨n % 256, Nat.mod_lt n (by decide)⟩

/-- Three bytes give four characters; a last group of one or two bytes is padded with '='. -/
def encodeChars : Bytes → List Char
  | [] => []
  | [a] => [enc6 (a.val / 4), enc6 (a.val % 4 * 16), '=', '=']
  | [a, b] =>
    [enc6 (a.val / 4), enc6 (a.val % 4 * 16 + b.val / 16), enc6 (b.val % 16 * 4), '=']
  | a :: b :: c :: rest =>
    enc6 (a.val / 4) :: enc6 (a.val % 4 * 16 + b.val / 16) ::
      enc6 (b.val % 16 * 4 + c.val / 64) :: enc6 (c.val % 64) :: encodeChars rest

/-- `base64.URLEncoding.EncodeToString`. -/
def EncodeToString (src : Bytes) : String := String.mk (encodeChars src)

/-- Decode groups of four characters; padding is accepted in the last group only. -/
def decodeChars : List Char → Option Bytes
  | [] => some []
  | a :: b :: c :: d :: rest =>
    match dec6 a, dec6 b with
    | some x, some y =>
      if d = '=' then
        if rest = [] then
          if c = '=' then some [toByte (x * 4 + y / 16)]
          else
            match dec6 c with
            | some z => some [toByte (x * 4 + y / 16), toByte (y % 16 * 16 + z / 4)]
            | none => none
        else none
      else
        match dec6 c, dec6 d, decodeChars rest with
        | some z, some w, some bs =>
          some (toByte (x * 4 + y / 16) :: toByte (y % 16 * 16 + z / 4) ::
            toByte (z % 4 * 64 + w) :: bs)
        | _, _, _ => none
    | _, _ => none
  | _ => none

/-- `base64.URLEncoding.DecodeString`, on input without line breaks. -/
def DecodeString (s : String) : Option Bytes := decodeChars s.toList

/-! ### `encoding/json` on the auth credential -/

/-- The bytes of an ASCII literal. -/
def ascii (s : String) : Bytes := s.toList.map (fun c => toByte c.toNat)

/-- Modelled from the spec: the JSON object of the credential, which holds "exactly the
configured username and secret fields". Key and value of each field, in declaration order, a
field with the empty string left out; the keys and `omitempty` are those of the
`types.AuthConfig` declaration, which is outside the source file. -/
def AuthConfig.members (a : AuthConfig) : List (String × String) :=
  [("username", a.Username), ("password", a.Password), ("auth", a.Auth),
   ("email", a.Email), ("serveraddress", a.ServerAddress),
   ("identitytoken", a.IdentityToken), ("registrytoken", a.RegistryToken)].filter
    (fun kv => kv.2 ≠ "")

/-- One member in compact form: quoted key, colon, string literal of the value. -/
def renderMember (env : Env) (kv : String × String) : Bytes :=
  ascii "\"" ++ ascii kv.1 ++ ascii "\":" ++ env.jsonString kv.2

/-- A JSON object in compact form. -/
def renderObject (env : Env) (ms : List (String × String)) : Bytes :=
  ascii "\x7b" ++ (ascii ",").intercalate (ms.map (renderMember env)) ++ ascii "\x7d"

/-- `json.Marshal(ds.AuthConfig)`; marshalling a struct of strings does not fail. -/
def jsonMarshal (env : Env) (a : AuthConfig) : Except String Bytes :=
  .ok (renderObject env a.members)

def Push (env : Env) (ds : DockerService) : RunResult :=
  let log0 : List Event :=
    [⟨.PrintInfo ("Pushing to " ++ ds.dockerImage.RemoteTag), none⟩,
     ⟨.PrintInfo ("User: " ++ ds.AuthConfig.Username), none⟩]
  let ctx := WithTimeout Background env.ctxNow (Second * 120)
  match jsonMarshal env ds.AuthConfig with
  | .error err =>
    { outcome := .returned (some err), log := log0 ++ [⟨.Marshal, some err⟩, ⟨.cancel, none⟩] }
  | .ok encodedJSON =>
    let ipo : ImagePushOptions := { RegistryAuth := EncodeToString encodedJSON }
    let tag : Call := .ImageTag ctx ds.dockerImage.LocalTag ds.dockerImage.RemoteTag
    match ds.Client.ImageTag ctx ds.dockerImage.LocalTag ds.dockerImage.RemoteTag with
    | some err =>
      { outcome := .returned (some ("Tagging local image for remote " ++ err)),
        log := log0 ++ [⟨.Marshal, none⟩, ⟨tag, some err⟩, ⟨.cancel, none⟩] }
    | none =>
      let push : Call := .ImagePush ctx ds.dockerImage.RemoteTag ipo
      match ds.Client.ImagePush ctx ds.dockerImage.RemoteTag ipo with
      | (none, err) =>
        -- `defer pushResponse.Close()` on the nil interface: the method value cannot be
        -- evaluated, the deferred `cancel` runs and the panic leaves `Push`
        { outcome := .panicked "runtime error: invalid memory address or nil pointer dereference",
          log := log0 ++ [⟨.Marshal, none⟩, ⟨tag, none⟩, ⟨push, err⟩, ⟨.cancel, none⟩] }
      | (some pushResponse, some err) =>
        { outcome := .returned (some ("Failed to push docker image " ++ err)),
          log := log0 ++ [⟨.Marshal, none⟩, ⟨tag, none⟩, ⟨push, some err⟩,
            ⟨.Close pushResponse, none⟩, ⟨.cancel, none⟩] }
      | (some pushResponse, none) =>
        { outcome := .returned (env.PrintStream pushResponse),
          log := log0 ++ [⟨.Marshal, none⟩, ⟨tag, none⟩, ⟨push, none⟩,
            ⟨.PrintStream pushResponse, env.PrintStream pushResponse⟩,
            ⟨.Close pushResponse, none⟩, ⟨.cancel, none⟩] }

/-! ## Vocabulary of the statements -/

/-- Sum of the sizes the headers of an archive declare. -/
def declaredSize (a : Archive) : Int := (a.map (fun e => e.hdr.Size)).sum

def Call.isImageBuild : Call → Bool
  | .ImageBuild _ _ _ => true
  | _ => false

def Call.isImagePush : Call → Bool
  | .ImagePush _ _ _ => true
  | _ => false

def Call.isClose : Call → Bool
  | .Close _ => true
  | _ => false

/-- The calls of context assembly: archive facilities and project. -/
def Call.isAssembly : Call → Bool
  | .TarWithOptions _ => true
  | .Next => true
  | .WriteHeader _ => true
  | .Copy => true
  | .Dockerfile => true
  | .Write _ => true
  | .CloseWriter => true
  | _ => false

/-! ## A concrete scenario

A directory holding `app.py` (10 bytes) and `requirements.txt` (5 bytes), a generated build
file of 42 bytes, collaborators that do not fail, and an engine that accepts every request. -/

def exSource : Archive :=
  [{ hdr := { Name := "app.py", Size := 10, Mode := 0o644 }, content := List.replicate 10 0 },
   { hdr := { Name := "requirements.txt", Size := 5, Mode := 0o644 },
     content := List.replicate 5 1 }]

def noFaults : TarFaults :=
  { WriteHeader := fun _ _ => none, Write := fun _ _ => none, Close := fun _ => none }

def exEnv : Env :=
  { GeneratedDockerFile := "Dockerfile.initium",
    timeNow := 1700000000 * Second,
    ctxNow := 1700000000 * Second,
    TarWithOptions := fun _ => .ok (TarStream.ofEntries exSource),
    tar := noFaults,
    PrintStream := fun _ => none,
    jsonString := fun s => ascii ("\"" ++ s ++ "\"") }

def exClient : Client :=
  { ImageBuild := fun _ _ _ => .ok { Body := "build log" },
    ImageTag := fun _ _ _ => none,
    ImagePush := fun _ _ _ => (some "push log", none) }

def exService : DockerService :=
  { project := { Dockerfile := .ok (List.replicate 42 2) },
    DockerFileName := "Dockerfile.initium",
    Client := exClient,
    AuthConfig := { Username := "bob", Password := "pw" },
    dockerImage := { Directory := ".", LocalTag := "app:latest",
                     RemoteTag := "ghcr.io/acme/app:latest" } }

/-- The entry generated in the scenario. -/
def exGenerated : Entry :=
  { hdr := { Name := "Dockerfile.initium", Mode := 0o600, Size := 42,
             ModTime := 1700000000 * Second },
    content := List.replicate 42 2 }

/-- The same, with a writer that fails on every content write. -/
def exEnvCopyFault : Env :=
  { exEnv with tar := { noFaults with Write := fun _ _ => some "short write" } }

/-- The same, with a writer that fails on every header. -/
def exEnvHeaderFault : Env :=
  { exEnv with tar := { noFaults with WriteHeader := fun _ _ => some "short write" } }

/-- The same, with a source archive whose first header cannot be read. -/
def exEnvReadFault : Env :=
  { exEnv with TarWithOptions := fun _ => .ok (.fail "short write") }

/-- A service whose engine tags the image and then refuses the push, returning the nil
response and an error. -/
def exServiceDenied : DockerService :=
  { exService with
    Client := { exClient with ImagePush := fun _ _ _ => (none, some "denied") } }

/-- A service whose engine refuses every build request. -/
def exServiceRefused : DockerService :=
  { exService with
    Client := { exClient with ImageBuild := fun _ _ _ => .error "no space left" } }

/-- The scenario with a log sink that fails on every stream. -/
def exEnvSinkFault : Env :=
  { exEnv with PrintStream := fun _ => some "broken pipe" }

/-! ## Lemmas on the archive writer and the copy loop -/

theorem appendContent_snoc (tw : Archive) (e : Entry) (b : Bytes) :
    appendContent (tw ++ [e]) b = tw ++ [{ e with content := e.content ++ b }] := by
  induction tw with
  | nil => rfl
  | cons x xs ih =>
    cases xs with
    | nil => rfl
    | cons y ys =>
      simp only [List.cons_append] at ih ⊢
      simp only [appendContent]
      rw [ih]

theorem WriteHeader_ok {f : TarFaults} {tw tw1 : Archive} {hdr : Header}
    (h : WriteHeader f tw hdr = .ok tw1) : tw1 = tw ++ [{ hdr := hdr, content := [] }] := by
  unfold WriteHeader at h
  split at h
  · cases h
  · cases h; rfl

theorem Write_ok {f : TarFaults} {tw tw2 : Archive} {b : Bytes}
    (h : Write f tw b = .ok tw2) : tw2 = appendContent tw b := by
  unfold Write at h
  split at h
  · cases h
  · cases h; rfl

/-- Header and content written one after the other make one new entry. -/
theorem WriteHeader_Write_ok {f : TarFaults} {tw tw1 tw2 : Archive} {hdr : Header} {b : Bytes}
    (h1 : WriteHeader f tw hdr = .ok tw1) (h2 : Write f tw1 b = .ok tw2) :
    tw2 = tw ++ [{ hdr := hdr, content := b }] := by
  rw [Write_ok h2, WriteHeader_ok h1, appendContent_snoc]
  rfl

/-- When the copy loop reaches `break` on a well-formed source, the writer holds what it held
before followed by the source entries. -/
theorem copyLoop_ofEntries_ok (env : Env) (E : Archive) :
    ∀ (tw tw2 : Archive), (copyLoop env (TarStream.ofEntries E) tw).1 = .ok tw2 →
      tw2 = tw ++ E := by
  induction E with
  | nil =>
    intro tw tw2 h
    simp only [TarStream.ofEntries, copyLoop] at h
    cases h
    simp
  | cons e es ih =>
    intro tw tw2 h
    simp only [TarStream.ofEntries, copyLoop] at h
    split at h
    · cases h
    · rename_i tw1 h1
      split at h
      · cases h
      · rename_i tw3 h3
        simp only [Copy] at h3
        have h4 := WriteHeader_Write_ok h1 h3
        have h5 := ih tw3 tw2 h
        rw [h5, h4]
        simp

/-- A copy loop that reaches `break` has logged no failed call. -/
theorem copyLoop_ok_log (env : Env) (s : TarStream) :
    ∀ (tw tw2 : Archive), (copyLoop env s tw).1 = .ok tw2 →
      ∀ ev ∈ (copyLoop env s tw).2, ev.err = none := by
  induction s with
  | eof =>
    intro tw tw2 _ ev hev
    simp only [copyLoop, List.mem_singleton] at hev
    rw [hev]
  | fail e =>
    intro tw tw2 h
    simp [copyLoop] at h
  | entry hdr content rest ih =>
    intro tw tw2 h ev hev
    simp only [copyLoop] at h hev
    cases h1 : WriteHeader env.tar tw hdr with
    | error e => simp [h1] at h
    | ok tw1 =>
      cases h3 : Copy env.tar tw1 content with
      | error e => simp [h1, h3] at h
      | ok tw3 =>
        simp only [h1, h3] at h hev
        rw [List.mem_append] at hev
        rcases hev with hev | hev
        · simp only [List.mem_cons, List.mem_singleton, List.not_mem_nil, or_false] at hev
          rcases hev with rfl | rfl | rfl <;> rfl
        · exact ih tw3 tw2 h ev hev

/-- A successful `generateDockerfile` fetched some bytes `b`, appended exactly one entry made
of the literal header and `b`, and logged no failed call. -/
theorem generateDockerfile_ok (env : Env) (ds : DockerService) (tw : Archive)
    (h : (generateDockerfile env ds tw).err = none) :
    ∃ b, ds.project.Dockerfile = .ok b ∧
      (generateDockerfile env ds tw).tw =
        tw ++ [{ hdr := { Name := env.GeneratedDockerFile, Mode := 0o600,
                          Size := (b.length : Int), ModTime := env.timeNow },
                 content := b }] ∧
      ∀ ev ∈ (generateDockerfile env ds tw).log, ev.err = none := by
  unfold generateDockerfile at h ⊢
  cases hd : ds.project.Dockerfile with
  | error e => simp [hd] at h
  | ok b =>
    refine ⟨b, rfl, ?_⟩
    simp only [hd] at h ⊢
    cases h1 : WriteHeader env.tar tw
        { Name := env.GeneratedDockerFile, Mode := 0o600, Size := (b.length : Int),
          ModTime := env.timeNow } with
    | error e => simp [h1] at h
    | ok tw1 =>
      simp only [h1] at h ⊢
      cases h2 : Write env.tar tw1 b with
      | error e => simp [h2] at h
      | ok tw2 =>
        simp only [h2]
        refine ⟨WriteHeader_Write_ok h1 h2, ?_⟩
        intro ev hev
        simp only [List.mem_cons, List.mem_singleton, List.not_mem_nil, or_false] at hev
        rcases hev with rfl | rfl | rfl <;> rfl

/-- The shape of a successful `buildContext`: the directory was archived, the copy loop
reached `break` with writer `twL`, the generated file was appended when asked for, and no
call failed. -/
theorem buildContext_ok (env : Env) (ds : DockerService)
    (h : (buildContext env ds).err = none) :
    ∃ s twL, env.TarWithOptions ds.dockerImage.Directory = .ok s ∧
      (copyLoop env s []).1 = .ok twL ∧
      (ds.DockerFileName ≠ env.GeneratedDockerFile →
        (buildContext env ds).reader = some twL) ∧
      (ds.DockerFileName = env.GeneratedDockerFile →
        (generateDockerfile env ds twL).err = none ∧
        (buildContext env ds).reader = some (generateDockerfile env ds twL).tw) ∧
      ∀ ev ∈ (buildContext env ds).log, ev.err = none := by
  unfold buildContext at h ⊢
  cases hs : env.TarWithOptions ds.dockerImage.Directory with
  | error e => simp [hs] at h
  | ok s =>
    simp only [hs] at h ⊢
    cases hL : copyLoop env s [] with
    | mk r log1 =>
      cases r with
      | error e => simp [hL] at h
      | ok twL =>
        have hlog1 : ∀ ev ∈ log1, ev.err = none := by
          have := copyLoop_ok_log env s [] twL (by rw [hL])
          rwa [hL] at this
        simp only [hL] at h ⊢
        refine ⟨s, twL, rfl, by rw [hL], ?_⟩
        by_cases hn : ds.DockerFileName = env.GeneratedDockerFile
        · simp only [hn, if_true] at h ⊢
          cases hg : (generateDockerfile env ds twL).err with
          | some e => simp [hg] at h
          | none =>
            obtain ⟨b, _, _, hglog⟩ := generateDockerfile_ok env ds twL hg
            simp only [hg] at h ⊢
            cases hc : Close env.tar (generateDockerfile env ds twL).tw with
            | some e => simp [hc] at h
            | none =>
              simp only [hc]
              refine ⟨fun hne => absurd rfl hne, fun _ => ⟨trivial, trivial⟩, ?_⟩
              intro ev hev
              simp only [List.mem_append, List.mem_singleton] at hev
              rcases hev with ((rfl | hev) | hev) | rfl
              · rfl
              · exact hlog1 ev hev
              · exact hglog ev hev
              · rfl
        · simp only [hn, if_false] at h ⊢
          cases hc : Close env.tar twL with
          | some e => simp [hc] at h
          | none =>
            simp only [hc]
            refine ⟨fun _ => trivial, fun hne => absurd hne (by simp), ?_⟩
            intro ev hev
            simp only [List.mem_append, List.mem_singleton, List.append_nil] at hev
            rcases hev with (rfl | hev) | rfl
            · rfl
            · exact hlog1 ev hev
            · rfl

/-- The Go pair returned by `buildContext` never holds both a reader and an error, and never
neither. -/
theorem buildContext_pair (env : Env) (ds : DockerService) :
    ((buildContext env ds).err = none ∧ (buildContext env ds).reader.isSome) ∨
    ((buildContext env ds).err.isSome ∧ (buildContext env ds).reader = none) := by
  unfold buildContext
  cases hs : env.TarWithOptions ds.dockerImage.Directory with
  | error e => simp
  | ok s =>
    simp only
    cases hL : copyLoop env s [] with
    | mk r log1 =>
      cases r with
      | error e => simp
      | ok twL =>
        simp only
        split
        · simp
        · split <;> simp

theorem copyLoop_log_calls (env : Env) (s : TarStream) :
    ∀ (tw : Archive), ∀ ev ∈ (copyLoop env s tw).2,
      ev.call = .Next ∨ (∃ hdr, ev.call = .WriteHeader hdr) ∨ ev.call = .Copy := by
  induction s with
  | eof => intro tw ev hev; simp only [copyLoop, List.mem_singleton] at hev; simp [hev]
  | fail e => intro tw ev hev; simp only [copyLoop, List.mem_singleton] at hev; simp [hev]
  | entry hdr content rest ih =>
    intro tw ev hev
    simp only [copyLoop] at hev
    cases h1 : WriteHeader env.tar tw hdr with
    | error e =>
      simp only [h1, List.mem_cons, List.mem_singleton, List.not_mem_nil, or_false] at hev
      rcases hev with rfl | rfl <;> simp
    | ok tw1 =>
      cases h3 : Copy env.tar tw1 content with
      | error e =>
        simp only [h1, h3, List.mem_cons, List.mem_singleton, List.not_mem_nil, or_false] at hev
        rcases hev with rfl | rfl | rfl <;> simp
      | ok tw3 =>
        simp only [h1, h3] at hev
        rw [List.mem_append] at hev
        rcases hev with hev | hev
        · simp only [List.mem_cons, List.mem_singleton, List.not_mem_nil, or_false] at hev
          rcases hev with rfl | rfl | rfl <;> simp
        · exact ih tw3 ev hev

theorem generateDockerfile_log_calls (env : Env) (ds : DockerService) (tw : Archive) :
    ∀ ev ∈ (generateDockerfile env ds tw).log,
      ev.call = .Dockerfile ∨ (∃ hdr, ev.call = .WriteHeader hdr) ∨ (∃ b, ev.call = .Write b) := by
  intro ev hev
  unfold generateDockerfile at hev
  cases hd : ds.project.Dockerfile with
  | error e => simp only [hd, List.mem_singleton] at hev; simp [hev]
  | ok b =>
    simp only [hd] at hev
    cases h1 : WriteHeader env.tar tw
        { Name := env.GeneratedDockerFile, Mode := 0o600, Size := (b.length : Int),
          ModTime := env.timeNow } with
    | error e =>
      simp only [h1, List.mem_cons, List.mem_singleton, List.not_mem_nil, or_false] at hev
      rcases hev with rfl | rfl <;> simp
    | ok tw1 =>
      simp only [h1] at hev
      cases h2 : Write env.tar tw1 b with
      | error e =>
        simp only [h2, List.mem_cons, List.mem_singleton, List.not_mem_nil, or_false] at hev
        rcases hev with rfl | rfl | rfl <;> simp
      | ok tw2 =>
        simp only [h2, List.mem_cons, List.mem_singleton, List.not_mem_nil, or_false] at hev
        rcases hev with rfl | rfl | rfl <;> simp

/-- Context assembly talks to the archive facilities and the project only: it issues no
engine call. -/
theorem buildContext_log_assembly (env : Env) (ds : DockerService) :
    ∀ ev ∈ (buildContext env ds).log, ev.call.isAssembly = true := by
  have hloop : ∀ s tw, ∀ ev ∈ (copyLoop env s tw).2, ev.call.isAssembly = true := by
    intro s tw ev hev
    rcases copyLoop_log_calls env s tw ev hev with h | ⟨_, h⟩ | h <;> rw [h] <;> rfl
  have hgen : ∀ tw, ∀ ev ∈ (generateDockerfile env ds tw).log,
      ev.call.isAssembly = true := by
    intro tw ev hev
    rcases generateDockerfile_log_calls env ds tw ev hev with h | ⟨_, h⟩ | ⟨_, h⟩ <;>
      rw [h] <;> rfl
  intro ev hev
  unfold buildContext at hev
  cases hs : env.TarWithOptions ds.dockerImage.Directory with
  | error e =>
    simp only [hs, List.mem_singleton] at hev
    rw [hev]; rfl
  | ok s =>
    simp only [hs] at hev
    have hl := hloop s []
    cases hL : copyLoop env s [] with
    | mk r log1 =>
      rw [hL] at hl
      have hg := hgen
      cases r with
      | error e =>
        simp only [hL, List.mem_append, List.mem_singleton] at hev
        rcases hev with rfl | hev
        · rfl
        · exact hl ev hev
      | ok twL =>
        simp only [hL] at hev
        have hg2 : ∀ ev ∈ (if ds.DockerFileName = env.GeneratedDockerFile
            then generateDockerfile env ds twL
            else ({ err := none, tw := twL, log := [] } : GenResult)).log,
            ev.call.isAssembly = true := by
          split
          · exact hg twL
          · intro ev hev; simp at hev
        split at hev
        · simp only [List.mem_append, List.mem_singleton] at hev
          rcases hev with (rfl | hev) | hev
          · rfl
          · exact hl ev hev
          · exact hg2 ev hev
        · split at hev <;>
          · simp only [List.mem_append, List.mem_singleton] at hev
            rcases hev with ((rfl | hev) | hev) | rfl
            · rfl
            · exact hl ev hev
            · exact hg2 ev hev
            · rfl

theorem buildContext_log_calls (env : Env) (ds : DockerService) :
    ∀ ev ∈ (buildContext env ds).log, ev.call.isImageBuild = false := by
  intro ev hev
  have h := buildContext_log_assembly env ds ev hev
  cases hc : ev.call <;> rw [hc] at h <;> first | rfl | cases h

theorem buildContext_log_no_close (env : Env) (ds : DockerService) :
    ∀ ev ∈ (buildContext env ds).log, ev.call.isClose = false := by
  intro ev hev
  have h := buildContext_log_assembly env ds ev hev
  cases hc : ev.call <;> rw [hc] at h <;> first | rfl | cases h

/-! ## Archive merger -/

/-- C1: on a source archive with entries `E` on which `buildContext` succeeds, the returned
archive is `E` itself (same headers and contents, same order) when `DockerFileName` is not
`defaults.GeneratedDockerFile`, so it has as many entries as `E`; and it is `E` followed by one
generated entry when it is, so it has one entry more, the generated one is last, and the number
of entries carrying the generated name is the number in `E` plus one (a source entry of that
name is kept). -/
theorem buildContext_entries (env : Env) (ds : DockerService) (E : Archive)
    (hsrc : env.TarWithOptions ds.dockerImage.Directory = .ok (TarStream.ofEntries E))
    (hok : (buildContext env ds).err = none) :
    ∃ merged, (buildContext env ds).reader = some merged ∧
      (ds.DockerFileName ≠ env.GeneratedDockerFile →
        merged = E ∧ merged.length = E.length) ∧
      (ds.DockerFileName = env.GeneratedDockerFile →
        ∃ g, merged = E ++ [g] ∧ g.hdr.Name = env.GeneratedDockerFile ∧
          merged.length = E.length + 1 ∧ merged.getLast? = some g ∧
          (merged.filter (fun e => decide (e.hdr.Name = env.GeneratedDockerFile))).length =
            (E.filter (fun e => decide (e.hdr.Name = env.GeneratedDockerFile))).length + 1) := by
  obtain ⟨s, twL, hs, hloop, hne, heq, _⟩ := buildContext_ok env ds hok
  rw [hsrc] at hs
  cases hs
  have htw : twL = E := by simpa using copyLoop_ofEntries_ok env E [] twL hloop
  subst htw
  by_cases hn : ds.DockerFileName = env.GeneratedDockerFile
  · obtain ⟨hg, hr⟩ := heq hn
    obtain ⟨b, _, htw, _⟩ := generateDockerfile_ok env ds twL hg
    refine ⟨_, hr, fun h => absurd hn h, fun _ => ?_⟩
    rw [htw]
    refine ⟨_, rfl, rfl, by simp, by simp, ?_⟩
    simp [List.filter_append]
  · exact ⟨twL, hne hn, fun _ => ⟨rfl, rfl⟩, fun h => absurd h hn⟩

theorem buildContext_entries_witness :
    exEnv.TarWithOptions exService.dockerImage.Directory = .ok (TarStream.ofEntries exSource) ∧
    (buildContext exEnv exService).err = none ∧
    ∃ merged, (buildContext exEnv exService).reader = some merged ∧
      (exService.DockerFileName ≠ exEnv.GeneratedDockerFile →
        merged = exSource ∧ merged.length = exSource.length) ∧
      (exService.DockerFileName = exEnv.GeneratedDockerFile →
        ∃ g, merged = exSource ++ [g] ∧ g.hdr.Name = exEnv.GeneratedDockerFile ∧
          merged.length = exSource.length + 1 ∧ merged.getLast? = some g ∧
          (merged.filter (fun e => decide (e.hdr.Name = exEnv.GeneratedDockerFile))).length =
            (exSource.filter
              (fun e => decide (e.hdr.Name = exEnv.GeneratedDockerFile))).length + 1) :=
  ⟨rfl, by decide, buildContext_entries exEnv exService exSource rfl (by decide)⟩

/-- C2: when `project.Dockerfile()` returns the bytes `b`, the entry a successful
`generateDockerfile` appends has the name `defaults.GeneratedDockerFile`, mode 0600, declared
size `len(b)` and content exactly `b`; and the archive `buildContext` then returns for a source
with entries `E` has one entry more than `E` and declares the sizes of `E` plus `len(b)` in
total. -/
theorem generateDockerfile_exact_size (env : Env) (ds : DockerService) (b : Bytes)
    (hb : ds.project.Dockerfile = .ok b) :
    (∀ tw, (generateDockerfile env ds tw).err = none →
      ∃ g, (generateDockerfile env ds tw).tw = tw ++ [g] ∧
        g.hdr.Name = env.GeneratedDockerFile ∧ g.hdr.Mode = 0o600 ∧
        g.hdr.Size = (b.length : Int) ∧ g.content = b) ∧
    (∀ E merged, env.TarWithOptions ds.dockerImage.Directory = .ok (TarStream.ofEntries E) →
      ds.DockerFileName = env.GeneratedDockerFile →
      (buildContext env ds).reader = some merged →
      merged.length = E.length + 1 ∧
        declaredSize merged = declaredSize E + (b.length : Int)) := by
  constructor
  · intro tw hok
    obtain ⟨b2, hb2, htw, _⟩ := generateDockerfile_ok env ds tw hok
    rw [hb] at hb2
    cases hb2
    exact ⟨_, htw, rfl, rfl, rfl, rfl⟩
  · intro E merged hsrc hn hr
    have hok : (buildContext env ds).err = none := by
      rcases buildContext_pair env ds with h | h
      · exact h.1
      · rw [h.2] at hr; cases hr
    obtain ⟨s, twL, hs, hloop, _, heq, _⟩ := buildContext_ok env ds hok
    rw [hsrc] at hs
    cases hs
    have htw : twL = E := by simpa using copyLoop_ofEntries_ok env E [] twL hloop
    subst htw
    obtain ⟨hg, hr2⟩ := heq hn
    obtain ⟨b2, hb2, htw, _⟩ := generateDockerfile_ok env ds twL hg
    rw [hb] at hb2
    cases hb2
    rw [hr2, htw] at hr
    cases hr
    constructor
    · simp
    · simp [declaredSize]

/-- The scenario of the specification: source sizes 10 and 5 and 42 generated bytes give three
entries that declare 57 bytes. -/
theorem generateDockerfile_exact_size_witness :
    exService.project.Dockerfile = .ok (List.replicate 42 2) ∧
    ∃ merged, (buildContext exEnv exService).reader = some merged ∧
      merged.length = 3 ∧ declaredSize merged = 10 + 5 + 42 := by
  refine ⟨rfl, exSource ++ [exGenerated], by decide, ?_⟩
  have h := (generateDockerfile_exact_size exEnv exService (List.replicate 42 2) rfl).2
    exSource (exSource ++ [exGenerated]) rfl rfl (by decide)
  refine ⟨h.1, ?_⟩
  rw [h.2]
  decide

/-- C5: when a call made during context assembly fails (archiving the directory, reading an
entry, writing its header, copying its content, fetching the generated file, writing its header
or content, closing the writer), `buildContext` returns an error and the nil reader, `Build`
returns "Creating docker context " followed by that error, and `Build` issues no `ImageBuild`
call. -/
theorem buildContext_fail_fast (env : Env) (ds : DockerService)
    (hfail : ∃ ev ∈ (buildContext env ds).log, ev.err.isSome) :
    ∃ e, (buildContext env ds).err = some e ∧ (buildContext env ds).reader = none ∧
      (Build env ds).outcome = .returned (some ("Creating docker context " ++ e)) ∧
      ∀ ev ∈ (Build env ds).log, ev.call.isImageBuild = false := by
  obtain ⟨ev, hev, herr⟩ := hfail
  cases hc : (buildContext env ds).err with
  | none =>
    obtain ⟨_, _, _, _, _, _, hlog⟩ := buildContext_ok env ds hc
    rw [hlog ev hev] at herr
    cases herr
  | some e =>
    refine ⟨e, rfl, ?_, ?_, ?_⟩
    · rcases buildContext_pair env ds with h | h
      · rw [h.1] at hc; cases hc
      · exact h.2
    · simp only [Build, hc]
    · intro ev2 hev2
      simp only [Build, hc, List.mem_append, List.mem_singleton] at hev2
      rcases hev2 with (rfl | hev2) | rfl
      · rfl
      · exact buildContext_log_calls env ds ev2 hev2
      · rfl

theorem buildContext_fail_fast_witness :
    (∃ ev ∈ (buildContext exEnvCopyFault exService).log, ev.err.isSome) ∧
    ∃ e, (buildContext exEnvCopyFault exService).err = some e ∧
      (buildContext exEnvCopyFault exService).reader = none ∧
      (Build exEnvCopyFault exService).outcome =
        .returned (some ("Creating docker context " ++ e)) ∧
      ∀ ev ∈ (Build exEnvCopyFault exService).log, ev.call.isImageBuild = false :=
  ⟨⟨⟨.Copy, some "short write"⟩, by decide, rfl⟩,
   buildContext_fail_fast exEnvCopyFault exService
     ⟨⟨.Copy, some "short write"⟩, by decide, rfl⟩⟩

/-! ## Base64 -/

theorem dec6_enc6 : ∀ n, n < 64 → dec6 (enc6 n) = some n := by decide

theorem enc6_ne_pad : ∀ n, n < 64 → enc6 n ≠ '=' := by decide

theorem toByte_val (a : Byte) (n : Nat) (h : n = a.val) : toByte n = a := by
  apply Fin.ext
  simp only [toByte]
  have := a.isLt
  omega

/-- Decoding inverts encoding. -/
theorem decodeChars_encodeChars (src : Bytes) : decodeChars (encodeChars src) = some src := by
  induction src using encodeChars.induct with
  | case1 => rfl
  | case2 a =>
    have ha := a.isLt
    have h1 := dec6_enc6 (a.val / 4) (by omega)
    have h2 := dec6_enc6 (a.val % 4 * 16) (by omega)
    simp only [encodeChars, decodeChars, h1, h2, if_true]
    rw [toByte_val a _ (by omega)]
  | case3 a b =>
    have ha := a.isLt
    have hb := b.isLt
    have h1 := dec6_enc6 (a.val / 4) (by omega)
    have h2 := dec6_enc6 (a.val % 4 * 16 + b.val / 16) (by omega)
    have h3 := dec6_enc6 (b.val % 16 * 4) (by omega)
    have h3n := enc6_ne_pad (b.val % 16 * 4) (by omega)
    simp only [encodeChars, decodeChars, h1, h2, h3, if_true, if_neg h3n]
    rw [toByte_val a _ (by omega), toByte_val b _ (by omega)]
  | case4 a b c rest ih =>
    have ha := a.isLt
    have hb := b.isLt
    have hc := c.isLt
    have h1 := dec6_enc6 (a.val / 4) (by omega)
    have h2 := dec6_enc6 (a.val % 4 * 16 + b.val / 16) (by omega)
    have h3 := dec6_enc6 (b.val % 16 * 4 + c.val / 64) (by omega)
    have h4 := dec6_enc6 (c.val % 64) (by omega)
    have h4n := enc6_ne_pad (c.val % 64) (by omega)
    simp only [encodeChars, decodeChars, h1, h2, h3, h4, ih, if_neg h4n]
    rw [toByte_val a _ (by omega), toByte_val b _ (by omega), toByte_val c _ (by omega)]

/-- The encoding is made of whole groups of four characters. -/
theorem encodeChars_length (src : Bytes) : (encodeChars src).length % 4 = 0 := by
  induction src using encodeChars.induct with
  | case1 => rfl
  | case2 a => simp [encodeChars]
  | case3 a b => simp [encodeChars]
  | case4 a b c rest ih =>
    simp only [encodeChars, List.length_cons]
    omega

/-! ## The runs of `Push` and `Build` -/

/-- The four ways a run of `Push` can go, with outcome and calls: tagging fails; the push
returns the nil response; the push returns a response and an error; the push succeeds. -/
theorem Push_cases (env : Env) (ds : DockerService) :
    ∃ ctx ipo log0,
      ctx = WithTimeout Background env.ctxNow (Second * 120) ∧
      ipo = ({ RegistryAuth := EncodeToString (renderObject env ds.AuthConfig.members) } :
        ImagePushOptions) ∧
      log0 = [⟨.PrintInfo ("Pushing to " ++ ds.dockerImage.RemoteTag), none⟩,
              ⟨.PrintInfo ("User: " ++ ds.AuthConfig.Username), none⟩,
              ⟨.Marshal, none⟩] ∧
      ((∃ e, ds.Client.ImageTag ctx ds.dockerImage.LocalTag ds.dockerImage.RemoteTag = some e ∧
          Push env ds =
            { outcome := .returned (some ("Tagging local image for remote " ++ e)),
              log := log0 ++
                [⟨.ImageTag ctx ds.dockerImage.LocalTag ds.dockerImage.RemoteTag, some e⟩,
                 ⟨.cancel, none⟩] }) ∨
       (ds.Client.ImageTag ctx ds.dockerImage.LocalTag ds.dockerImage.RemoteTag = none ∧
         ((∃ err, ds.Client.ImagePush ctx ds.dockerImage.RemoteTag ipo = (none, err) ∧
            Push env ds =
              { outcome :=
                  .panicked "runtime error: invalid memory address or nil pointer dereference",
                log := log0 ++
                  [⟨.ImageTag ctx ds.dockerImage.LocalTag ds.dockerImage.RemoteTag, none⟩,
                   ⟨.ImagePush ctx ds.dockerImage.RemoteTag ipo, err⟩,
                   ⟨.cancel, none⟩] }) ∨
          (∃ r e, ds.Client.ImagePush ctx ds.dockerImage.RemoteTag ipo = (some r, some e) ∧
            Push env ds =
              { outcome := .returned (some ("Failed to push docker image " ++ e)),
                log := log0 ++
                  [⟨.ImageTag ctx ds.dockerImage.LocalTag ds.dockerImage.RemoteTag, none⟩,
                   ⟨.ImagePush ctx ds.dockerImage.RemoteTag ipo, some e⟩,
                   ⟨.Close r, none⟩,
                   ⟨.cancel, none⟩] }) ∨
          (∃ r, ds.Client.ImagePush ctx ds.dockerImage.RemoteTag ipo = (some r, none) ∧
            Push env ds =
              { outcome := .returned (env.PrintStream r),
                log := log0 ++
                  [⟨.ImageTag ctx ds.dockerImage.LocalTag ds.dockerImage.RemoteTag, none⟩,
                   ⟨.ImagePush ctx ds.dockerImage.RemoteTag ipo, none⟩,
                   ⟨.PrintStream r, env.PrintStream r⟩,
                   ⟨.Close r, none⟩,
                   ⟨.cancel, none⟩] })))) := by
  refine ⟨_, _, _, rfl, rfl, rfl, ?_⟩
  unfold Push
  simp only [jsonMarshal]
  cases hT : ds.Client.ImageTag (WithTimeout Background env.ctxNow (Second * 120))
      ds.dockerImage.LocalTag ds.dockerImage.RemoteTag with
  | some e =>
    left
    exact ⟨e, rfl, by simp⟩
  | none =>
    right
    refine ⟨rfl, ?_⟩
    cases hP : ds.Client.ImagePush (WithTimeout Background env.ctxNow (Second * 120))
        ds.dockerImage.RemoteTag
        { RegistryAuth := EncodeToString (renderObject env ds.AuthConfig.members) } with
    | mk r err =>
      cases r with
      | none =>
        left
        exact ⟨err, rfl, by simp⟩
      | some r =>
        cases err with
        | some e =>
          right; left
          exact ⟨r, e, rfl, by simp⟩
        | none =>
          right; right
          exact ⟨r, rfl, by simp⟩

/-- The three ways a run of `Build` can go, with outcome and calls: context assembly fails;
the engine refuses the request; the engine accepts it. -/
theorem Build_cases (env : Env) (ds : DockerService) :
    ∃ ctx opts log0,
      ctx = WithTimeout Background env.ctxNow (Minute * 5) ∧
      opts = ({ Context := (buildContext env ds).reader,
                Dockerfile := ds.DockerFileName,
                Tags := [ds.dockerImage.LocalTag],
                Remove := true } : ImageBuildOptions) ∧
      log0 = [(⟨.PrintInfo ("Building " ++ ds.dockerImage.LocalTag), none⟩ : Event)] ++
        (buildContext env ds).log ∧
      ((∃ e, (buildContext env ds).err = some e ∧
          Build env ds =
            { outcome := .returned (some ("Creating docker context " ++ e)),
              log := log0 ++ [⟨.cancel, none⟩] }) ∨
       ((buildContext env ds).err = none ∧
         ((∃ e, ds.Client.ImageBuild ctx (buildContext env ds).reader opts = .error e ∧
            Build env ds =
              { outcome := .returned (some ("Failed to build docker image " ++ e)),
                log := log0 ++
                  [⟨.ImageBuild ctx (buildContext env ds).reader opts, some e⟩,
                   ⟨.cancel, none⟩] }) ∨
          (∃ resp, ds.Client.ImageBuild ctx (buildContext env ds).reader opts = .ok resp ∧
            Build env ds =
              { outcome := .returned none,
                log := log0 ++
                  [⟨.ImageBuild ctx (buildContext env ds).reader opts, none⟩,
                   ⟨.PrintStream resp.Body, env.PrintStream resp.Body⟩,
                   ⟨.Close resp.Body, none⟩,
                   ⟨.cancel, none⟩] })))) := by
  refine ⟨_, _, _, rfl, rfl, rfl, ?_⟩
  unfold Build
  simp only
  cases hc : (buildContext env ds).err with
  | some e =>
    left
    exact ⟨e, rfl, by simp⟩
  | none =>
    right
    refine ⟨rfl, ?_⟩
    cases hB : ds.Client.ImageBuild (WithTimeout Background env.ctxNow (Minute * 5))
        (buildContext env ds).reader
        { Context := (buildContext env ds).reader,
          Dockerfile := ds.DockerFileName,
          Tags := [ds.dockerImage.LocalTag],
          Remove := true } with
    | error e =>
      left
      exact ⟨e, rfl, by simp⟩
    | ok resp =>
      right
      exact ⟨resp, rfl, by simp⟩

/-- In a list `l1 ++ t :: l2` where neither `l1` nor `t` satisfies `p`, every element that
satisfies `p` comes after `t`. -/
theorem mem_before_of_split {p : Event → Bool} {l1 l2 pre post : List Event} {t ev : Event}
    (hsplit : l1 ++ t :: l2 = pre ++ ev :: post)
    (hl1 : ∀ x ∈ l1, p x = false) (ht : p t = false) (hev : p ev = true) : t ∈ pre := by
  rcases List.append_eq_append_iff.mp hsplit with ⟨a, hpre, ha⟩ | ⟨c, hl, hc⟩
  · cases a with
    | nil =>
      simp only [List.nil_append, List.cons.injEq] at ha
      rw [ha.1, hev] at ht
      cases ht
    | cons x xs =>
      simp only [List.cons_append, List.cons.injEq] at ha
      rw [hpre, ha.1]
      simp
  · cases c with
    | nil =>
      simp only [List.nil_append, List.cons.injEq] at hc
      rw [← hc.1, hev] at ht
      cases ht
    | cons x xs =>
      simp only [List.cons_append, List.cons.injEq] at hc
      have := hl1 ev (by rw [hl, hc.1]; simp)
      rw [hev] at this
      cases this

/-- A failed call in the copy loop ends the loop with "Error copy context " followed by the
cause, whichever call it was. -/
theorem copyLoop_failed_event (env : Env) (s : TarStream) :
    ∀ (tw : Archive), ∀ ev ∈ (copyLoop env s tw).2, ∀ e, ev.err = some e →
      (copyLoop env s tw).1 = .error ("Error copy context " ++ e) := by
  induction s with
  | eof =>
    intro tw ev hev e he
    simp only [copyLoop, List.mem_singleton] at hev
    rw [hev] at he
    cases he
  | fail err =>
    intro tw ev hev e he
    simp only [copyLoop, List.mem_singleton] at hev
    rw [hev] at he
    cases he
    rfl
  | entry hdr content rest ih =>
    intro tw ev hev e he
    simp only [copyLoop] at hev ⊢
    cases h1 : WriteHeader env.tar tw hdr with
    | error err =>
      simp only [h1, List.mem_cons, List.mem_singleton, List.not_mem_nil, or_false] at hev ⊢
      rcases hev with rfl | rfl
      · cases he
      · cases he; rfl
    | ok tw1 =>
      cases h3 : Copy env.tar tw1 content with
      | error err =>
        simp only [h1, h3, List.mem_cons, List.mem_singleton, List.not_mem_nil,
          or_false] at hev ⊢
        rcases hev with rfl | rfl | rfl
        · cases he
        · cases he
        · cases he; rfl
      | ok tw3 =>
        simp only [h1, h3] at hev ⊢
        rw [List.mem_append] at hev
        rcases hev with hev | hev
        · simp only [List.mem_cons, List.mem_singleton, List.not_mem_nil, or_false] at hev
          rcases hev with rfl | rfl | rfl <;> cases he
        · exact ih tw3 ev hev e he

/-! ## Push orchestrator -/

/-- C3: the `RegistryAuth` of every `ImagePush` call of `Push` is the padded base64url
encoding of the JSON serialization of the `AuthConfig`, and such a call is issued whenever
tagging succeeds; decoding the value gives back exactly the JSON text; its length is a multiple
of 4; and when only username and password (or only username and identity token) are set, the
JSON object has exactly the two members of those names, with the configured values, and no
other. -/
theorem Push_RegistryAuth (env : Env) (ds : DockerService) :
    ∃ json, jsonMarshal env ds.AuthConfig = .ok json ∧
      (∀ ev ∈ (Push env ds).log, ∀ ctx image opts, ev.call = .ImagePush ctx image opts →
        opts.RegistryAuth = EncodeToString json) ∧
      (ds.Client.ImageTag (WithTimeout Background env.ctxNow (Second * 120))
          ds.dockerImage.LocalTag ds.dockerImage.RemoteTag = none →
        ∃ ev ∈ (Push env ds).log, ∃ ctx,
          ev.call = .ImagePush ctx ds.dockerImage.RemoteTag
            { RegistryAuth := EncodeToString json }) ∧
      DecodeString (EncodeToString json) = some json ∧
      (EncodeToString json).length % 4 = 0 ∧
      (∀ u p, u ≠ "" → p ≠ "" → ds.AuthConfig = { Username := u, Password := p } →
        ds.AuthConfig.members = [("username", u), ("password", p)] ∧
        json = ascii "\x7b\"username\":" ++ env.jsonString u ++ ascii ",\"password\":" ++
          env.jsonString p ++ ascii "\x7d") ∧
      (∀ u t, u ≠ "" → t ≠ "" → ds.AuthConfig = { Username := u, IdentityToken := t } →
        ds.AuthConfig.members = [("username", u), ("identitytoken", t)]) := by
  refine ⟨renderObject env ds.AuthConfig.members, rfl, ?_, ?_,
    decodeChars_encodeChars _, encodeChars_length _, ?_, ?_⟩
  · intro ev hev ctx image opts hcall
    obtain ⟨c, ipo, log0, _, hipo, hlog0, hcases⟩ := Push_cases env ds
    subst hlog0
    rcases hcases with ⟨e, _, hP⟩ | ⟨_, ⟨err, _, hP⟩ | ⟨r, e, _, hP⟩ | ⟨r, _, hP⟩⟩ <;>
      · rw [hP] at hev
        simp only [List.mem_append, List.mem_cons, List.mem_singleton, List.not_mem_nil,
          or_false] at hev
        rcases hev with (rfl | rfl | rfl) | hev
        · cases hcall
        · cases hcall
        · cases hcall
        · rcases hev with rfl | hev
          · cases hcall
          · first
            | (subst hev; cases hcall)
            | (rcases hev with rfl | hev
               · cases hcall
                 rw [hipo]
               · first
                 | (subst hev; cases hcall)
                 | (rcases hev with rfl | rfl <;> cases hcall)
                 | (rcases hev with rfl | rfl | rfl <;> cases hcall))
  · intro hT
    obtain ⟨c, ipo, log0, hc, hipo, _, hcases⟩ := Push_cases env ds
    subst hc hipo
    rcases hcases with ⟨e, hT2, _⟩ | ⟨_, ⟨err, _, hP⟩ | ⟨r, e, _, hP⟩ | ⟨r, _, hP⟩⟩
    · rw [hT] at hT2; cases hT2
    · exact ⟨⟨.ImagePush (WithTimeout Background env.ctxNow (Second * 120))
          ds.dockerImage.RemoteTag
          { RegistryAuth := EncodeToString (renderObject env ds.AuthConfig.members) }, err⟩,
        by rw [hP]; simp, _, rfl⟩
    · exact ⟨⟨.ImagePush (WithTimeout Background env.ctxNow (Second * 120))
          ds.dockerImage.RemoteTag
          { RegistryAuth := EncodeToString (renderObject env ds.AuthConfig.members) }, some e⟩,
        by rw [hP]; simp, _, rfl⟩
    · exact ⟨⟨.ImagePush (WithTimeout Background env.ctxNow (Second * 120))
          ds.dockerImage.RemoteTag
          { RegistryAuth := EncodeToString (renderObject env ds.AuthConfig.members) }, none⟩,
        by rw [hP]; simp, _, rfl⟩
  · intro u p hu hp ha
    have hm : ds.AuthConfig.members = [("username", u), ("password", p)] := by
      rw [ha]
      simp [AuthConfig.members, hu, hp]
    refine ⟨hm, ?_⟩
    rw [hm]
    have h1 : ascii "\x7b\"username\":" =
        ascii "\x7b" ++ (ascii "\"" ++ ascii "username" ++ ascii "\":") := by decide
    have h2 : ascii ",\"password\":" =
        ascii "," ++ (ascii "\"" ++ ascii "password" ++ ascii "\":") := by decide
    rw [h1, h2]
    simp [renderObject, renderMember, List.intercalate]
  · intro u t hu ht ha
    rw [ha]
    simp [AuthConfig.members, hu, ht]

/-- C4: in every run of `Push`, each `ImagePush` call comes after an `ImageTag` call for
(`LocalTag`, `RemoteTag`) that returned no error; and when `ImageTag` fails with cause `e`,
`Push` returns "Tagging local image for remote " followed by `e` and issues no `ImagePush`
call. -/
theorem Push_tags_before_push (env : Env) (ds : DockerService) :
    (∀ pre ev post, (Push env ds).log = pre ++ ev :: post → ev.call.isImagePush = true →
      ∃ t ∈ pre, ∃ ctx,
        t.call = .ImageTag ctx ds.dockerImage.LocalTag ds.dockerImage.RemoteTag ∧
        t.err = none ∧
        ds.Client.ImageTag ctx ds.dockerImage.LocalTag ds.dockerImage.RemoteTag = none) ∧
    (∀ e, ds.Client.ImageTag (WithTimeout Background env.ctxNow (Second * 120))
        ds.dockerImage.LocalTag ds.dockerImage.RemoteTag = some e →
      (Push env ds).outcome = .returned (some ("Tagging local image for remote " ++ e)) ∧
      ∀ ev ∈ (Push env ds).log, ev.call.isImagePush = false) := by
  obtain ⟨c, ipo, log0, hc, _, hlog0, hcases⟩ := Push_cases env ds
  have h0 : ∀ x ∈ log0, x.call.isImagePush = false := by
    intro x hx
    rw [hlog0] at hx
    simp only [List.mem_cons, List.mem_singleton, List.not_mem_nil, or_false] at hx
    rcases hx with rfl | rfl | rfl <;> rfl
  constructor
  · intro pre ev post hsplit hev
    rcases hcases with ⟨e, _, hP⟩ | ⟨hT, ⟨err, _, hP⟩ | ⟨r, e, _, hP⟩ | ⟨r, _, hP⟩⟩
    · have hmem : ev ∈ (Push env ds).log := by rw [hsplit]; simp
      rw [hP] at hmem
      simp only [List.mem_append, List.mem_cons, List.mem_singleton, List.not_mem_nil,
        or_false] at hmem
      rcases hmem with hmem | rfl | rfl
      · rw [h0 ev hmem] at hev; cases hev
      · cases hev
      · cases hev
    all_goals
      rw [hP] at hsplit
      exact ⟨_, mem_before_of_split hsplit h0 rfl hev, c, rfl, rfl, hT⟩
  · intro e hT
    subst hc
    rcases hcases with ⟨e2, hT2, hP⟩ | ⟨hT2, _⟩
    · rw [hT] at hT2
      cases hT2
      rw [hP]
      refine ⟨rfl, ?_⟩
      intro ev hmem
      simp only [List.mem_append, List.mem_cons, List.mem_singleton, List.not_mem_nil,
        or_false] at hmem
      rcases hmem with hmem | rfl | rfl
      · exact h0 ev hmem
      · rfl
      · rfl
    · rw [hT] at hT2; cases hT2

/-- C6, the code at the failing input: tagging succeeds and `ImagePush` returns the nil
response with the error "denied"; `Push` panics at `defer pushResponse.Close()` and does not
return the error "Failed to push docker image denied". -/
theorem Push_failed_push_panics :
    exServiceDenied.Client.ImageTag (WithTimeout Background exEnv.ctxNow (Second * 120))
      exServiceDenied.dockerImage.LocalTag exServiceDenied.dockerImage.RemoteTag = none ∧
    (exServiceDenied.Client.ImagePush (WithTimeout Background exEnv.ctxNow (Second * 120))
      exServiceDenied.dockerImage.RemoteTag
      { RegistryAuth := EncodeToString
          (renderObject exEnv exServiceDenied.AuthConfig.members) }) = (none, some "denied") ∧
    (Push exEnv exServiceDenied).outcome =
      .panicked "runtime error: invalid memory address or nil pointer dereference" ∧
    (Push exEnv exServiceDenied).outcome ≠
      .returned (some "Failed to push docker image denied") := by
  refine ⟨rfl, rfl, ?_, ?_⟩ <;> decide

/-- C7 as stated fails: in the scenario the `ImageTag` call is issued under a context that
has a deadline, 120 seconds after the context was created. -/
theorem Push_tag_deadline_counterexample :
    (⟨.ImageTag { deadline := some (exEnv.ctxNow + 120 * Second) } "app:latest"
        "ghcr.io/acme/app:latest", none⟩ : Event) ∈ (Push exEnv exService).log ∧
    ¬ (∀ ev ∈ (Push exEnv exService).log, ∀ ctx source target,
        ev.call = .ImageTag ctx source target → ctx.deadline = none) := by
  have hmem : (⟨.ImageTag { deadline := some (exEnv.ctxNow + 120 * Second) } "app:latest"
      "ghcr.io/acme/app:latest", none⟩ : Event) ∈ (Push exEnv exService).log := by decide
  refine ⟨hmem, fun h => ?_⟩
  have := h _ hmem _ _ _ rfl
  cases this

/-- C7, amended: in every run of `Push` the `ImageTag` call and every `ImagePush` call are
issued under one and the same context, whose deadline is 120 seconds after its creation at the
start of `Push`; the `ImageTag` call is always issued. -/
theorem Push_shared_deadline (env : Env) (ds : DockerService) :
    (∃ ev ∈ (Push env ds).log,
      ev.call = .ImageTag { deadline := some (env.ctxNow + Second * 120) }
        ds.dockerImage.LocalTag ds.dockerImage.RemoteTag) ∧
    (∀ ev ∈ (Push env ds).log,
      (∀ ctx source target, ev.call = .ImageTag ctx source target →
        ctx = { deadline := some (env.ctxNow + Second * 120) }) ∧
      (∀ ctx image opts, ev.call = .ImagePush ctx image opts →
        ctx = { deadline := some (env.ctxNow + Second * 120) })) := by
  obtain ⟨c, ipo, log0, hc, _, hlog0, hcases⟩ := Push_cases env ds
  have hc2 : c = { deadline := some (env.ctxNow + Second * 120) } := by
    rw [hc]; rfl
  subst hlog0
  constructor
  · rcases hcases with ⟨e, _, hP⟩ | ⟨hT, hrest⟩
    · exact ⟨⟨.ImageTag c ds.dockerImage.LocalTag ds.dockerImage.RemoteTag, some e⟩,
        by rw [hP]; simp, by rw [hc2]⟩
    · refine ⟨⟨.ImageTag c ds.dockerImage.LocalTag ds.dockerImage.RemoteTag, none⟩,
        ?_, by rw [hc2]⟩
      rcases hrest with ⟨err, _, hP⟩ | ⟨r, e, _, hP⟩ | ⟨r, _, hP⟩ <;>
        · rw [hP]; simp
  · intro ev hev
    rcases hcases with ⟨e, _, hP⟩ | ⟨hT, ⟨err, _, hP⟩ | ⟨r, e, _, hP⟩ | ⟨r, _, hP⟩⟩ <;>
      · rw [hP] at hev
        simp only [List.mem_append, List.mem_cons, List.mem_singleton, List.not_mem_nil,
          or_false] at hev
        constructor
        · intro ctx source target hcall
          rcases hev with (rfl | rfl | rfl) | hev
          · cases hcall
          · cases hcall
          · cases hcall
          · rcases hev with rfl | hev
            · cases hcall; exact hc2
            · first
              | (subst hev; cases hcall)
              | (rcases hev with rfl | rfl <;> cases hcall)
              | (rcases hev with rfl | rfl | rfl <;> cases hcall)
              | (rcases hev with rfl | rfl | rfl | rfl <;> cases hcall)
        · intro ctx image opts hcall
          rcases hev with (rfl | rfl | rfl) | hev
          · cases hcall
          · cases hcall
          · cases hcall
          · rcases hev with rfl | hev
            · cases hcall
            · first
              | (subst hev; cases hcall)
              | (rcases hev with rfl | hev
                 · cases hcall; exact hc2
                 · first
                   | (subst hev; cases hcall)
                   | (rcases hev with rfl | rfl <;> cases hcall)
                   | (rcases hev with rfl | rfl | rfl <;> cases hcall))

/-! ## Errors of the copy loop -/

/-- C8 as stated fails: with the same cause, a failed header write, a failed content copy
and a failed entry read make `buildContext` return one and the same error. -/
theorem buildContext_copy_phase_counterexample :
    (⟨.WriteHeader { Name := "app.py", Size := 10, Mode := 0o644 }, some "short write"⟩ : Event)
      ∈ (buildContext exEnvHeaderFault exService).log ∧
    (⟨.Copy, some "short write"⟩ : Event) ∈ (buildContext exEnvCopyFault exService).log ∧
    (⟨.Next, some "short write"⟩ : Event) ∈ (buildContext exEnvReadFault exService).log ∧
    (buildContext exEnvHeaderFault exService).err = some "Error copy context short write" ∧
    ¬ ((buildContext exEnvHeaderFault exService).err ≠
        (buildContext exEnvCopyFault exService).err ∧
       (buildContext exEnvHeaderFault exService).err ≠
        (buildContext exEnvReadFault exService).err ∧
       (buildContext exEnvCopyFault exService).err ≠
        (buildContext exEnvReadFault exService).err) := by
  decide

/-- C8, amended: when a call of the copy loop fails with cause `e` (reading an entry, writing
its header or copying its content), `buildContext` returns the error "Error copy context "
followed by `e`, the same for the three calls, and no reader. -/
theorem buildContext_copy_error (env : Env) (ds : DockerService) (s : TarStream)
    (hs : env.TarWithOptions ds.dockerImage.Directory = .ok s)
    (ev : Event) (e : String) (hev : ev ∈ (copyLoop env s []).2) (he : ev.err = some e) :
    (ev.call = .Next ∨ (∃ hdr, ev.call = .WriteHeader hdr) ∨ ev.call = .Copy) ∧
    (buildContext env ds).err = some ("Error copy context " ++ e) ∧
    (buildContext env ds).reader = none := by
  refine ⟨copyLoop_log_calls env s [] ev hev, ?_⟩
  have h := copyLoop_failed_event env s [] ev hev e he
  unfold buildContext
  simp only [hs]
  cases hL : copyLoop env s [] with
  | mk r log1 =>
    rw [hL] at h
    simp only at h
    subst h
    exact ⟨rfl, rfl⟩

theorem buildContext_copy_error_witness :
    exEnvCopyFault.TarWithOptions exService.dockerImage.Directory =
      .ok (TarStream.ofEntries exSource) ∧
    (⟨.Copy, some "short write"⟩ : Event) ∈
      (copyLoop exEnvCopyFault (TarStream.ofEntries exSource) []).2 ∧
    ((Call.Copy = .Next ∨ (∃ hdr, Call.Copy = .WriteHeader hdr) ∨ Call.Copy = .Copy) ∧
      (buildContext exEnvCopyFault exService).err =
        some ("Error copy context " ++ "short write") ∧
      (buildContext exEnvCopyFault exService).reader = none) :=
  ⟨rfl, by decide,
   buildContext_copy_error exEnvCopyFault exService (TarStream.ofEntries exSource) rfl
     ⟨.Copy, some "short write"⟩ "short write" (by decide) rfl⟩

/-! ## Build orchestrator -/

/-- C9: when context assembly succeeds, `Build` issues exactly one `ImageBuild` call, whether
the engine accepts it or not: under a context whose deadline is 5 minutes after its creation,
with the merged archive as body and the options `Dockerfile = DockerFileName`,
`Tags = [LocalTag()]`, `Remove = true`, `Context` = the same merged archive; the call's error is
the one the engine returned. -/
theorem Build_single_request (env : Env) (ds : DockerService)
    (hok : (buildContext env ds).err = none) :
    ∃ merged ev, (buildContext env ds).reader = some merged ∧
      (Build env ds).log.filter (fun x => x.call.isImageBuild) = [ev] ∧
      ev.call = .ImageBuild { deadline := some (env.ctxNow + Minute * 5) } (some merged)
        { Context := some merged,
          Dockerfile := ds.DockerFileName,
          Tags := [ds.dockerImage.LocalTag],
          Remove := true } ∧
      (ev.err = none ↔ ∃ resp, ds.Client.ImageBuild
        { deadline := some (env.ctxNow + Minute * 5) } (some merged)
        { Context := some merged,
          Dockerfile := ds.DockerFileName,
          Tags := [ds.dockerImage.LocalTag],
          Remove := true } = .ok resp) := by
  have hr : ∃ merged, (buildContext env ds).reader = some merged := by
    rcases buildContext_pair env ds with h | h
    · exact Option.isSome_iff_exists.mp h.2
    · rw [hok] at h; cases h.1
  obtain ⟨merged, hr⟩ := hr
  obtain ⟨c, opts, log0, hc, hopts, hlog0, hcases⟩ := Build_cases env ds
  have hc2 : c = { deadline := some (env.ctxNow + Minute * 5) } := by
    rw [hc]; rfl
  rw [hr] at hopts hcases
  subst hc2 hopts
  have h0 : log0.filter (fun x => x.call.isImageBuild) = [] := by
    rw [List.filter_eq_nil_iff]
    intro x hx
    rw [hlog0] at hx
    simp only [List.mem_append, List.mem_singleton] at hx
    rcases hx with rfl | hx
    · simp [Call.isImageBuild]
    · simp [buildContext_log_calls env ds x hx]
  rcases hcases with ⟨e, he, _⟩ | ⟨_, ⟨e, hB, hP⟩ | ⟨resp, hB, hP⟩⟩
  · rw [hok] at he; cases he
  · refine ⟨merged, ⟨_, some e⟩, hr, ?_, rfl, ?_⟩
    · rw [hP]
      simp only [List.filter_append, h0, List.nil_append]
      simp only [List.filter, Call.isImageBuild]
    · rw [hB]
      simp
  · refine ⟨merged, ⟨_, none⟩, hr, ?_, rfl, ?_⟩
    · rw [hP]
      simp only [List.filter_append, h0, List.nil_append]
      simp only [List.filter, Call.isImageBuild]
    · rw [hB]
      simp

theorem Build_single_request_witness :
    (buildContext exEnv exService).err = none ∧
    ∃ merged ev, (buildContext exEnv exService).reader = some merged ∧
      (Build exEnv exService).log.filter (fun x => x.call.isImageBuild) = [ev] ∧
      ev.call = .ImageBuild { deadline := some (exEnv.ctxNow + Minute * 5) } (some merged)
        { Context := some merged,
          Dockerfile := exService.DockerFileName,
          Tags := [exService.dockerImage.LocalTag],
          Remove := true } ∧
      (ev.err = none ↔ ∃ resp, exService.Client.ImageBuild
        { deadline := some (exEnv.ctxNow + Minute * 5) } (some merged)
        { Context := some merged,
          Dockerfile := exService.DockerFileName,
          Tags := [exService.dockerImage.LocalTag],
          Remove := true } = .ok resp) :=
  ⟨by decide, Build_single_request exEnv exService (by decide)⟩

/-- What the call log of `Build` says about its outcome: an error is returned exactly when
context assembly failed or the logged `ImageBuild` call failed, and a logged `ImageBuild` call
that succeeded is followed by `PrintStream`, one `Close` and `cancel`. -/
theorem Build_log_outcome (env : Env) (ds : DockerService) :
    ((∃ e, (Build env ds).outcome = .returned (some e)) ↔
      ((buildContext env ds).err.isSome ∨
        ∃ ev ∈ (Build env ds).log, ev.call.isImageBuild = true ∧ ev.err.isSome)) ∧
    ((Build env ds).outcome = .returned none ∨ ∃ e, (Build env ds).outcome = .returned (some e)) ∧
    (∀ ev ∈ (Build env ds).log, ev.call.isImageBuild = true → ev.err = none →
      ∃ pre ctx body opts resp,
        ev.call = .ImageBuild ctx body opts ∧
        ds.Client.ImageBuild ctx body opts = .ok resp ∧
        (Build env ds).log = pre ++
          [ev, ⟨.PrintStream resp.Body, env.PrintStream resp.Body⟩,
           ⟨.Close resp.Body, none⟩, ⟨.cancel, none⟩] ∧
        (∀ x ∈ pre, x.call.isClose = false) ∧
        (Build env ds).outcome = .returned none) ∧
    (∀ r, ds.Client.ImageTag (WithTimeout Background env.ctxNow (Second * 120))
        ds.dockerImage.LocalTag ds.dockerImage.RemoteTag = none →
      ds.Client.ImagePush (WithTimeout Background env.ctxNow (Second * 120))
        ds.dockerImage.RemoteTag
        { RegistryAuth := EncodeToString (renderObject env ds.AuthConfig.members) }
        = (some r, none) →
      (Push env ds).outcome = .returned (env.PrintStream r)) := by
  obtain ⟨c, opts, log0, hc, hopts, hlog0, hcases⟩ := Build_cases env ds
  have h0 : ∀ x ∈ log0, x.call.isImageBuild = false ∧ x.call.isClose = false := by
    intro x hx
    rw [hlog0] at hx
    simp only [List.mem_append, List.mem_singleton] at hx
    rcases hx with rfl | hx
    · exact ⟨rfl, rfl⟩
    · exact ⟨buildContext_log_calls env ds x hx, buildContext_log_no_close env ds x hx⟩
  refine ⟨?_, ?_, ?_, ?_⟩
  · rcases hcases with ⟨e, he, hP⟩ | ⟨hok, ⟨e, hB, hP⟩ | ⟨resp, hB, hP⟩⟩
    · rw [hP, he]
      simp
    · rw [hP]
      constructor
      · intro _
        right
        exact ⟨⟨.ImageBuild c (buildContext env ds).reader opts, some e⟩, by simp, rfl, rfl⟩
      · intro _
        exact ⟨_, rfl⟩
    · rw [hP]
      constructor
      · rintro ⟨e, he⟩
        cases he
      · rintro (h | ⟨x, hx, hb, he⟩)
        · rw [hok] at h; cases h
        · simp only [List.mem_append, List.mem_cons, List.mem_singleton, List.not_mem_nil,
            or_false] at hx
          rcases hx with hx | rfl | rfl | rfl | rfl
          · rw [(h0 x hx).1] at hb; cases hb
          · cases he
          · cases hb
          · cases hb
          · cases hb
  · rcases hcases with ⟨e, he, hP⟩ | ⟨hok, ⟨e, hB, hP⟩ | ⟨resp, hB, hP⟩⟩
    · right; exact ⟨_, by rw [hP]⟩
    · right; exact ⟨_, by rw [hP]⟩
    · left; rw [hP]
  · intro ev hev hb herr
    rcases hcases with ⟨e, he, hP⟩ | ⟨hok, ⟨e, hB, hP⟩ | ⟨resp, hB, hP⟩⟩
    · rw [hP] at hev
      simp only [List.mem_append, List.mem_singleton] at hev
      rcases hev with hev | rfl
      · rw [(h0 ev hev).1] at hb; cases hb
      · cases hb
    · rw [hP] at hev
      simp only [List.mem_append, List.mem_cons, List.mem_singleton, List.not_mem_nil,
        or_false] at hev
      rcases hev with hev | rfl | rfl
      · rw [(h0 ev hev).1] at hb; cases hb
      · cases herr
      · cases hb
    · rw [hP] at hev ⊢
      simp only [List.mem_append, List.mem_cons, List.mem_singleton, List.not_mem_nil,
        or_false] at hev
      rcases hev with hev | rfl | rfl | rfl | rfl
      · rw [(h0 ev hev).1] at hb; cases hb
      · exact ⟨log0, _, _, _, resp, rfl, hB, rfl, fun x hx => (h0 x hx).2, rfl⟩
      · cases hb
      · cases hb
      · cases hb
  · intro r hT hPush
    obtain ⟨c2, ipo, l0, hc2, hipo, _, hcs⟩ := Push_cases env ds
    subst hc2 hipo
    rcases hcs with ⟨e, hT2, _⟩ | ⟨_, ⟨err, h2, _⟩ | ⟨r2, e, h2, _⟩ | ⟨r2, h2, hP⟩⟩
    · rw [hT] at hT2; cases hT2
    · rw [hPush] at h2; cases h2
    · rw [hPush] at h2; cases h2
    · rw [hPush] at h2
      cases h2
      rw [hP]

/-- C10: `Build` never panics and returns an error exactly when context assembly failed or
the engine's `ImageBuild` returned an error (the error is then "Creating docker context " or
"Failed to build docker image " followed by the cause, and a refused request is logged as the
one failed `ImageBuild` call, with nothing forwarded or closed); when the engine accepts the
request, `Build` issues the call, passes the response body to `logger.PrintStream`, then closes
that body, once, and returns nil whatever `PrintStream` returned; `Push`, when the engine
accepts its push, passes the response to `PrintStream`, closes it and returns what
`PrintStream` returned. The same holds read off the call log of `Build`. -/
theorem Build_error_iff (env : Env) (ds : DockerService) :
    ((∃ e, (Build env ds).outcome = .returned (some e)) ↔
      ((buildContext env ds).err.isSome ∨
        ∃ e, ds.Client.ImageBuild (WithTimeout Background env.ctxNow (Minute * 5))
          (buildContext env ds).reader
          { Context := (buildContext env ds).reader,
            Dockerfile := ds.DockerFileName,
            Tags := [ds.dockerImage.LocalTag],
            Remove := true } = .error e)) ∧
    ((Build env ds).outcome = .returned none ∨ ∃ e, (Build env ds).outcome = .returned (some e)) ∧
    (∀ e, (buildContext env ds).err = some e →
      (Build env ds).outcome = .returned (some ("Creating docker context " ++ e))) ∧
    (∀ e, (buildContext env ds).err = none →
      ds.Client.ImageBuild (WithTimeout Background env.ctxNow (Minute * 5))
        (buildContext env ds).reader
        { Context := (buildContext env ds).reader,
          Dockerfile := ds.DockerFileName,
          Tags := [ds.dockerImage.LocalTag],
          Remove := true } = .error e →
      (Build env ds).outcome = .returned (some ("Failed to build docker image " ++ e)) ∧
      ∃ pre, (Build env ds).log = pre ++
          [⟨.ImageBuild (WithTimeout Background env.ctxNow (Minute * 5))
              (buildContext env ds).reader
              { Context := (buildContext env ds).reader,
                Dockerfile := ds.DockerFileName,
                Tags := [ds.dockerImage.LocalTag],
                Remove := true }, some e⟩,
           ⟨.cancel, none⟩] ∧
        ∀ x ∈ pre, x.call.isImageBuild = false ∧ x.call.isClose = false) ∧
    (∀ resp, (buildContext env ds).err = none →
      ds.Client.ImageBuild (WithTimeout Background env.ctxNow (Minute * 5))
        (buildContext env ds).reader
        { Context := (buildContext env ds).reader,
          Dockerfile := ds.DockerFileName,
          Tags := [ds.dockerImage.LocalTag],
          Remove := true } = .ok resp →
      (Build env ds).outcome = .returned none ∧
      ∃ pre, (Build env ds).log = pre ++
          [⟨.ImageBuild (WithTimeout Background env.ctxNow (Minute * 5))
              (buildContext env ds).reader
              { Context := (buildContext env ds).reader,
                Dockerfile := ds.DockerFileName,
                Tags := [ds.dockerImage.LocalTag],
                Remove := true }, none⟩,
           ⟨.PrintStream resp.Body, env.PrintStream resp.Body⟩,
           ⟨.Close resp.Body, none⟩,
           ⟨.cancel, none⟩] ∧
        ∀ x ∈ pre, x.call.isImageBuild = false ∧ x.call.isClose = false) ∧
    (∀ r, ds.Client.ImageTag (WithTimeout Background env.ctxNow (Second * 120))
        ds.dockerImage.LocalTag ds.dockerImage.RemoteTag = none →
      ds.Client.ImagePush (WithTimeout Background env.ctxNow (Second * 120))
        ds.dockerImage.RemoteTag
        { RegistryAuth := EncodeToString (renderObject env ds.AuthConfig.members) }
        = (some r, none) →
      (Push env ds).outcome = .returned (env.PrintStream r) ∧
      ∃ pre, (Push env ds).log = pre ++
          [⟨.ImagePush (WithTimeout Background env.ctxNow (Second * 120))
              ds.dockerImage.RemoteTag
              { RegistryAuth := EncodeToString (renderObject env ds.AuthConfig.members) }, none⟩,
           ⟨.PrintStream r, env.PrintStream r⟩,
           ⟨.Close r, none⟩,
           ⟨.cancel, none⟩] ∧
        ∀ x ∈ pre, x.call.isImagePush = false ∧ x.call.isClose = false) ∧
    (((∃ e, (Build env ds).outcome = .returned (some e)) ↔
      ((buildContext env ds).err.isSome ∨
        ∃ ev ∈ (Build env ds).log, ev.call.isImageBuild = true ∧ ev.err.isSome)) ∧
     (∀ ev ∈ (Build env ds).log, ev.call.isImageBuild = true → ev.err = none →
      ∃ pre ctx body opts resp,
        ev.call = .ImageBuild ctx body opts ∧
        ds.Client.ImageBuild ctx body opts = .ok resp ∧
        (Build env ds).log = pre ++
          [ev, ⟨.PrintStream resp.Body, env.PrintStream resp.Body⟩,
           ⟨.Close resp.Body, none⟩, ⟨.cancel, none⟩] ∧
        (∀ x ∈ pre, x.call.isClose = false) ∧
        (Build env ds).outcome = .returned none)) := by
  obtain ⟨c, opts, log0, hc, hopts, hlog0, hcases⟩ := Build_cases env ds
  subst hc hopts
  have h0 : ∀ x ∈ log0, x.call.isImageBuild = false ∧ x.call.isClose = false := by
    intro x hx
    rw [hlog0] at hx
    simp only [List.mem_append, List.mem_singleton] at hx
    rcases hx with rfl | hx
    · exact ⟨rfl, rfl⟩
    · exact ⟨buildContext_log_calls env ds x hx, buildContext_log_no_close env ds x hx⟩
  have hlog := Build_log_outcome env ds
  refine ⟨?_, hlog.2.1, ?_, ?_, ?_, ?_, hlog.1, hlog.2.2.1⟩
  · rcases hcases with ⟨e, he, hP⟩ | ⟨hok, ⟨e, hB, hP⟩ | ⟨resp, hB, hP⟩⟩
    · rw [hP, he]
      simp
    · rw [hP, hB]
      simp
    · rw [hP, hB, hok]
      simp
  · intro e he
    rcases hcases with ⟨e2, he2, hP⟩ | ⟨hok, _⟩
    · rw [he] at he2
      cases he2
      rw [hP]
    · rw [he] at hok; cases hok
  · intro e hok hB
    rcases hcases with ⟨e2, he2, _⟩ | ⟨_, ⟨e2, hB2, hP⟩ | ⟨resp, hB2, _⟩⟩
    · rw [hok] at he2; cases he2
    · rw [hB] at hB2
      cases hB2
      rw [hP]
      exact ⟨rfl, log0, rfl, h0⟩
    · rw [hB] at hB2; cases hB2
  · intro resp hok hB
    rcases hcases with ⟨e2, he2, _⟩ | ⟨_, ⟨e2, hB2, _⟩ | ⟨resp2, hB2, hP⟩⟩
    · rw [hok] at he2; cases he2
    · rw [hB] at hB2; cases hB2
    · rw [hB] at hB2
      cases hB2
      rw [hP]
      exact ⟨rfl, log0, rfl, h0⟩
  · intro r hT hPush
    obtain ⟨c2, ipo, l0, hc2, hipo, hl0, hcs⟩ := Push_cases env ds
    subst hc2 hipo
    rcases hcs with ⟨e, hT2, _⟩ | ⟨_, ⟨err, h2, _⟩ | ⟨r2, e, h2, _⟩ | ⟨r2, h2, hP⟩⟩
    · rw [hT] at hT2; cases hT2
    · rw [hPush] at h2; cases h2
    · rw [hPush] at h2; cases h2
    · rw [hPush] at h2
      cases h2
      rw [hP]
      refine ⟨rfl, l0 ++ [⟨.ImageTag (WithTimeout Background env.ctxNow (Second * 120))
        ds.dockerImage.LocalTag ds.dockerImage.RemoteTag, none⟩], by simp, ?_⟩
      intro x hx
      rw [hl0] at hx
      simp only [List.mem_append, List.mem_cons, List.mem_singleton, List.not_mem_nil,
        or_false] at hx
      rcases hx with (rfl | rfl | rfl) | rfl <;> exact ⟨rfl, rfl⟩

/-- With an engine that refuses the request `Build` returns the engine's error, wrapped; with
a log sink that fails `Build` still returns nil. -/
theorem Build_error_iff_witness :
    (Build exEnv exServiceRefused).outcome =
      .returned (some ("Failed to build docker image " ++ "no space left")) ∧
    exEnvSinkFault.PrintStream "build log" = some "broken pipe" ∧
    (Build exEnvSinkFault exService).outcome = .returned none :=
  ⟨((Build_error_iff exEnv exServiceRefused).2.2.2.1 "no space left" (by decide) rfl).1,
   rfl,
   ((Build_error_iff exEnvSinkFault exService).2.2.2.2.1 { Body := "build log" }
      (by decide) rfl).1⟩

end Docker
